import Mathlib

/-!
Shallow embedding of the genetic timetabling engine in
`src/genetic_algorithm.py`, together with theorems checking the
natural-language specification against it.

Randomness is made explicit: every call the Python code makes into the
`random` module is modelled by an oracle argument (a natural number, or a
function producing natural numbers / booleans), and a draw
`random.choice(xs)` becomes an index reduced modulo `xs.length`.  The
fitness function indexes the global catalog `DISCIPLINAS` by the position
of the session being checked, so a session list longer than the catalog can
make that access fail (an `IndexError` in Python); the embedding therefore
returns `Option Int`, with `none` standing for the raised exception.
-/

set_option maxRecDepth 4000

/-- One catalog entry (an element of the Python `DISCIPLINAS` list of dicts). -/
structure Disciplina where
  nome : String
  tipo : String
  professor : String
  sala_requerida : String
  preferencia : String
  deriving DecidableEq, Repr, Inhabited

/-- One scheduled session (the Python `aula` dict built by `gerar_individuo`). -/
structure Aula where
  disciplina : String
  professor : String
  sala : String
  dia : String
  horario : String
  tipo : String
  preferencia : String
  deriving DecidableEq, Repr, Inhabited

/-- The fixed course catalog `DISCIPLINAS`. -/
def DISCIPLINAS : List Disciplina := [
  ⟨"Cálculo I", "teorica", "Ana", "Sala 101", "manha"⟩,
  ⟨"Algoritmos e Programação", "laboratorio", "Alice", "Lab. Software", "tarde"⟩,
  ⟨"Circuitos Digitais", "laboratorio", "Carlos", "Lab. Hardware", "tarde"⟩,
  ⟨"Inteligência Artificial", "teorica", "Bruno", "Sala 102", "qualquer"⟩,
  ⟨"Sistemas Operacionais", "laboratorio", "Bruno", "Lab. Software", "manha"⟩]

/-- The room list `SALAS`. -/
def SALAS : List String := ["Sala 101", "Sala 102", "Lab. Software", "Lab. Hardware"]

/-- The day list `DIAS`. -/
def DIAS : List String := ["Segunda", "Terça", "Quarta", "Quinta", "Sexta"]

/-- The morning slot list `HORARIOS_MANHA`. -/
def HORARIOS_MANHA : List String := ["08:00-10:00", "10:00-12:00"]

/-- The afternoon slot list `HORARIOS_TARDE`. -/
def HORARIOS_TARDE : List String := ["13:30-15:30", "15:30-17:30"]

/-- Slot drawing used by `gerar_individuo` and `mutacao`: pick from the
morning list, the afternoon list, or their concatenation, according to the
preference string; `k` is the random index of the draw.  The Python code
follows each draw with `horario.strip()`; every drawable string is an
element of the constant slot lists, none of which carries surrounding
whitespace, so `strip` is the identity and is modelled as such. -/
def escolherHorario (pref : String) (k : Nat) : String :=
  if pref = "manha" then HORARIOS_MANHA.getD (k % HORARIOS_MANHA.length) ""
  else if pref = "tarde" then HORARIOS_TARDE.getD (k % HORARIOS_TARDE.length) ""
  else (HORARIOS_MANHA ++ HORARIOS_TARDE).getD
    (k % (HORARIOS_MANHA ++ HORARIOS_TARDE).length) ""

/-- Random draws consumed by one `gerar_individuo()` call: for the course at
position `i`, `dia i` indexes the day draw and `hor i` the slot draw. -/
structure IndRand where
  dia : Nat → Nat
  hor : Nat → Nat

/-- `gerar_individuo()`: one session per catalog course, in catalog order;
day drawn from `DIAS`, slot drawn according to the course preference, room
and instructor copied verbatim from the catalog entry. -/
def gerar_individuo (r : IndRand) : List Aula :=
  DISCIPLINAS.enum.map (fun p =>
    { disciplina := p.2.nome
      professor := p.2.professor
      sala := p.2.sala_requerida
      dia := DIAS.getD (r.dia p.1 % DIAS.length) ""
      horario := escolherHorario p.2.preferencia (r.hor p.1)
      tipo := p.2.tipo
      preferencia := p.2.preferencia })

/-- Penalty contributed by one ordered pair `(aula1, aula2)` of the inner
loop of `calcular_fitness`: professor conflict, room conflict, and the
unconditional same-day-same-slot penalty. -/
def pairPenalty (a b : Aula) : Int :=
  (if a.dia = b.dia ∧ a.horario = b.horario ∧ a.professor = b.professor then 200 else 0)
  + (if a.dia = b.dia ∧ a.horario = b.horario ∧ a.sala = b.sala then 200 else 0)
  + (if a.dia = b.dia ∧ a.horario = b.horario then 150 else 0)

/-- Lab-room check of `calcular_fitness` for the session at position `i`:
a `laboratorio` session is compared against `DISCIPLINAS[i].sala_requerida`.
`none` models the `IndexError` Python raises when `i` is outside the
catalog (only reachable for `laboratorio` sessions, because the `and`
short-circuits). -/
def salaPenalty (i : Nat) (a : Aula) : Option Int :=
  if a.tipo = "laboratorio" then
    (DISCIPLINAS.get? i).map (fun d => if a.sala ≠ d.sala_requerida then 300 else 0)
  else some 0

/-- Preference check of `calcular_fitness` for one session. -/
def prefPenalty (a : Aula) : Int :=
  if (a.preferencia = "manha" ∧ a.horario ∉ HORARIOS_MANHA)
     ∨ (a.preferencia = "tarde" ∧ a.horario ∉ HORARIOS_TARDE) then 50 else 0

/-- Total penalty accumulated by `calcular_fitness` over the suffix of the
candidate starting at catalog position `i`: the pair penalties of the head
against every later session, the head's lab-room and preference checks, and
recursively the rest. -/
def fitnessAux : Nat → List Aula → Option Int
  | _, [] => some 0
  | i, a :: rest => do
    let s ← salaPenalty i a
    let r ← fitnessAux (i + 1) rest
    pure ((rest.map (pairPenalty a)).sum + s + prefPenalty a + r)

/-- `calcular_fitness(individuo)`: 1000 minus all penalties; `none` models
the `IndexError` raised when a `laboratorio` session sits at a position
outside the catalog. -/
def calcular_fitness (individuo : List Aula) : Option Int :=
  (fitnessAux 0 individuo).map (fun p => 1000 - p)

/-- `crossover`'s cut point: `random.randint(1, len(DISCIPLINAS)-1)`, the
random draw `c` reduced into the inclusive range `[1, len-1]`. -/
def pontoCorte (c : Nat) : Nat := 1 + c % (DISCIPLINAS.length - 1)

/-- `crossover(pai1, pai2)`: prefix of the first parent up to the cut point,
suffix of the second parent from it. -/
def crossover (c : Nat) (pai1 pai2 : List Aula) : List Aula :=
  pai1.take (pontoCorte c) ++ pai2.drop (pontoCorte c)

/-- Random draws consumed by one `mutacao` call: mutated position, new day,
new slot. -/
structure MutRand where
  pos : Nat
  dia : Nat
  hor : Nat
  deriving Repr

/-- `mutacao(individuo)`: on a non-empty candidate, copy it and overwrite the
day and slot of one randomly chosen session, the slot drawn according to
that session's stored preference; an empty candidate is returned unchanged. -/
def mutacao (m : MutRand) (individuo : List Aula) : List Aula :=
  if individuo.isEmpty then individuo
  else
    let aula_mutada := m.pos % individuo.length
    let novo_dia := DIAS.getD (m.dia % DIAS.length) ""
    let disciplina := individuo.getD aula_mutada default
    let novo_horario := escolherHorario disciplina.preferencia m.hor
    individuo.set aula_mutada
      { disciplina with dia := novo_dia, horario := novo_horario }

/-- The progress observer (`callback_visualizacao`): receives the global
best (possibly `None`), the generation index, the global best fitness and,
on the four-argument call sites, the current population.  `Except` models
an observer that may raise. -/
def Callback : Type :=
  Option (List Aula) → Nat → Int → Option (List (List Aula)) → Except String Unit

/-- The `try/except` wrapper around every observer invocation: a raised
exception is caught and only printed, so the call never affects the loop. -/
def chamarCallback (cb : Option Callback) (mg : Option (List Aula)) (g : Nat)
    (mfg : Int) (pop : Option (List (List Aula))) : Unit :=
  match cb with
  | none => ()
  | some f =>
    match f mg g mfg pop with
    | Except.ok _ => ()
    | Except.error _ => ()

/-- Stable insertion (descending by fitness key): the new pair goes after
every pair with a key greater than or equal to its own.  This models the
stability of Python's `sorted` with key `-fitness`. -/
def insereDesc (x : Int × List Aula) : List (Int × List Aula) → List (Int × List Aula)
  | [] => [x]
  | y :: ys => if x.1 ≤ y.1 then y :: insereDesc x ys else x :: y :: ys

/-- `sorted(zip(fitness_populacao, populacao), key=lambda x: -x[0])` followed
by projection: the population reordered by descending fitness, ties kept in
original order (Python's sort is stable). -/
def ordenarPopulacao (fs : List Int) (pop : List (List Aula)) : List (List Aula) :=
  ((fs.zip pop).foldl (fun acc x => insereDesc x acc) []).map (fun p => p.2)

/-- The elite selection `populacao[:max(2, tamanho_populacao//5)]`. -/
def selecionarMelhores (tamanho : Nat) (pop : List (List Aula)) : List (List Aula) :=
  pop.take (max 2 (tamanho / 5))

/-- Random draws consumed by one generation of the loop: for the `k`-th
child appended by the `while` loop, the two parent draws, the crossover cut
draw, the mutation coin (`random.random() < 0.1`) and the mutation draws. -/
structure StepRand where
  p1 : Nat → Nat
  p2 : Nat → Nat
  corte : Nat → Nat
  moeda : Nat → Bool
  mutRand : Nat → MutRand

/-- The reproduction `while` loop: starting from a copy of the elite, append
children until the population is back at the configured size.  Each child is
a crossover of two parents drawn (with replacement) from the elite, mutated
with the 10% coin. -/
def reproduzir (r : StepRand) (melhores : List (List Aula)) (tamanho : Nat) :
    List (List Aula) :=
  (List.range (tamanho - melhores.length)).foldl (fun nova k =>
    let pai1 := melhores.getD (r.p1 k % melhores.length) []
    let pai2 := melhores.getD (r.p2 k % melhores.length) []
    let filho := crossover (r.corte k) pai1 pai2
    let filho := if r.moeda k then mutacao (r.mutRand k) filho else filho
    nova ++ [filho]) melhores

/-- Loop state carried from one generation to the next: the population and
the tracked global best (`melhor_global`, `melhor_fitness_global`). -/
structure EstadoLoop where
  populacao : List (List Aula)
  melhor_global : Option (List Aula)
  melhor_fitness_global : Int
  deriving DecidableEq, Repr

/-- One generation of `algoritmo_genetico` (`for geracao in range(geracoes)`
body): evaluate, sort, update the global best, report, select the elite and
reproduce.  `none` models an uncaught exception: a fitness `IndexError`, or
the `ValueError` of `max([])` on an empty population. -/
def geracaoStep (tamanho : Nat) (cb : Option Callback) (r : StepRand) (g : Nat)
    (st : EstadoLoop) : Option EstadoLoop := do
  let fitness_populacao ← st.populacao.mapM calcular_fitness
  let populacao := ordenarPopulacao fitness_populacao st.populacao
  let melhor_fitness ← fitness_populacao.max?
  let melhor_individuo := populacao.headD []
  let melhor_global := if melhor_fitness > st.melhor_fitness_global
    then some melhor_individuo else st.melhor_global
  let melhor_fitness_global := if melhor_fitness > st.melhor_fitness_global
    then melhor_fitness else st.melhor_fitness_global
  let _ := if g % 5 == 0 then
    chamarCallback cb melhor_global g melhor_fitness_global none else ()
  let melhores := selecionarMelhores tamanho populacao
  let nova_populacao := reproduzir r melhores tamanho
  let _ := chamarCallback cb melhor_global g melhor_fitness_global (some nova_populacao)
  pure { populacao := nova_populacao
         melhor_global := melhor_global
         melhor_fitness_global := melhor_fitness_global }

/-- Random draws consumed by one full run: `init k` feeds the `k`-th
`gerar_individuo()` call of the initial population, `step g` feeds
generation `g`. -/
structure LoopRand where
  init : Nat → IndRand
  step : Nat → StepRand

/-- The generation loop: `n` remaining generations, `g` the index of the
next one. -/
def loopGens (tamanho : Nat) (cb : Option Callback) (r : LoopRand) :
    Nat → Nat → EstadoLoop → Option EstadoLoop
  | 0, _, st => some st
  | n + 1, g, st => do
    let st1 ← geracaoStep tamanho cb (r.step g) g st
    loopGens tamanho cb r n (g + 1) st1

/-- The initial random population `[gerar_individuo() for _ in range(tamanho)]`. -/
def populacaoInicial (tamanho : Nat) (r : LoopRand) : List (List Aula) :=
  (List.range tamanho).map (fun k => gerar_individuo (r.init k))

/-- `algoritmo_genetico(tamanho_populacao, geracoes, callback_visualizacao)`
(defaults: 100, 200, `None`).  The outer `Option` models an uncaught
exception escaping the function; the inner value is the returned
`melhor_global`, which is `None` exactly when the `-1` fitness sentinel was
never beaten. -/
def algoritmo_genetico (tamanho_populacao geracoes : Nat) (r : LoopRand)
    (cb : Option Callback) : Option (Option (List Aula)) := do
  let populacao := populacaoInicial tamanho_populacao r
  let fin ← loopGens tamanho_populacao cb r geracoes 0
    { populacao := populacao, melhor_global := none, melhor_fitness_global := -1 }
  let _ := chamarCallback cb fin.melhor_global (geracoes - 1)
    fin.melhor_fitness_global (some fin.populacao)
  pure fin.melhor_global

/-!  ## Spec-side predicates

`semConflitosHorario`, `salasOk` and `prefsOk` express the specification's
"zero overlapping (day, slot) pairs, zero room mismatches, and zero
preference violations", written independently of the penalty arithmetic so
that the perfect-score theorem compares two formulations. -/

/-- No two sessions of the candidate share both day and slot. -/
def semConflitosHorario : List Aula → Bool
  | [] => true
  | a :: rest =>
    rest.all (fun b => !(a.dia == b.dia && a.horario == b.horario))
      && semConflitosHorario rest

/-- Every `laboratorio` session, position-indexed from `i`, sits in the room
the catalog requires at that position. -/
def salasOkDesde : Nat → List Aula → Bool
  | _, [] => true
  | i, a :: rest =>
    (if a.tipo == "laboratorio" then
      match DISCIPLINAS.get? i with
      | some d => a.sala == d.sala_requerida
      | none => false
    else true) && salasOkDesde (i + 1) rest

/-- Every `laboratorio` session sits in the room the catalog requires at its
position. -/
def salasOk (individuo : List Aula) : Bool := salasOkDesde 0 individuo

/-- Every session with a `manha` or `tarde` preference sits in a slot of the
corresponding list. -/
def prefsOk (individuo : List Aula) : Bool :=
  individuo.all (fun a =>
    !((a.preferencia == "manha" && !(HORARIOS_MANHA.contains a.horario))
      || (a.preferencia == "tarde" && !(HORARIOS_TARDE.contains a.horario))))

/-! ## Basic facts about the penalty terms -/

lemma pairPenalty_nonneg (a b : Aula) : 0 ≤ pairPenalty a b := by
  unfold pairPenalty
  split <;> split <;> split <;> norm_num

lemma prefPenalty_nonneg (a : Aula) : 0 ≤ prefPenalty a := by
  unfold prefPenalty
  split <;> norm_num

lemma salaPenalty_nonneg {i : Nat} {a : Aula} {s : Int}
    (h : salaPenalty i a = some s) : 0 ≤ s := by
  unfold salaPenalty at h
  split at h
  · cases hd : DISCIPLINAS.get? i with
    | none => rw [hd] at h; exact Option.noConfusion h
    | some d =>
      rw [hd] at h
      injection h with h1
      rw [← h1]
      simp only []
      split <;> norm_num
  · simp only [Option.some.injEq] at h
    omega

lemma pairSum_nonneg (a : Aula) (rest : List Aula) :
    0 ≤ (rest.map (pairPenalty a)).sum := by
  apply List.sum_nonneg
  intro x hx
  obtain ⟨b, _, rfl⟩ := List.mem_map.mp hx
  exact pairPenalty_nonneg a b

lemma fitnessAux_cons (i : Nat) (a : Aula) (rest : List Aula) :
    fitnessAux i (a :: rest) = (salaPenalty i a).bind fun s =>
      (fitnessAux (i + 1) rest).bind fun r =>
        some ((rest.map (pairPenalty a)).sum + s + prefPenalty a + r) := rfl

lemma fitnessAux_nonneg :
    ∀ (i : Nat) (individuo : List Aula) (p : Int),
      fitnessAux i individuo = some p → 0 ≤ p := by
  intro i individuo
  induction individuo generalizing i with
  | nil =>
    intro p h
    have h0 : (some 0 : Option Int) = some p := h
    injection h0 with h1
    omega
  | cons a rest ih =>
    intro p h
    rw [fitnessAux_cons] at h
    simp only [Option.bind_eq_some, Option.some.injEq] at h
    obtain ⟨s, hs, q, hq, hp⟩ := h
    have h1 := salaPenalty_nonneg hs
    have h2 := ih (i + 1) q hq
    have h3 := pairSum_nonneg a rest
    have h4 := prefPenalty_nonneg a
    omega

lemma fitnessAux_total :
    ∀ (i : Nat) (individuo : List Aula),
      i + individuo.length ≤ DISCIPLINAS.length →
      ∃ p, fitnessAux i individuo = some p := by
  intro i individuo
  induction individuo generalizing i with
  | nil => intro _; exact ⟨0, rfl⟩
  | cons a rest ih =>
    intro hlen
    simp only [List.length_cons] at hlen
    have hs : ∃ s, salaPenalty i a = some s := by
      unfold salaPenalty
      split
      · have hi : i < DISCIPLINAS.length := by omega
        rw [List.get?_eq_get hi]
        exact ⟨_, rfl⟩
      · exact ⟨0, rfl⟩
    obtain ⟨s, hs'⟩ := hs
    obtain ⟨q, hq⟩ := ih (i + 1) (by omega)
    refine ⟨(rest.map (pairPenalty a)).sum + s + prefPenalty a + q, ?_⟩
    rw [fitnessAux_cons, hs', hq]
    rfl

lemma pairPenalty_eq_zero {a b : Aula}
    (h : ¬(a.dia = b.dia ∧ a.horario = b.horario)) : pairPenalty a b = 0 := by
  unfold pairPenalty
  rw [if_neg (fun hc => h ⟨hc.1, hc.2.1⟩), if_neg (fun hc => h ⟨hc.1, hc.2.1⟩),
    if_neg h]
  norm_num

lemma prefPenalty_eq_zero {a : Aula}
    (hm : a.preferencia = "manha" → a.horario ∈ HORARIOS_MANHA)
    (ht : a.preferencia = "tarde" → a.horario ∈ HORARIOS_TARDE) :
    prefPenalty a = 0 := by
  unfold prefPenalty
  rw [if_neg]
  rintro (⟨h1, h2⟩ | ⟨h1, h2⟩)
  · exact h2 (hm h1)
  · exact h2 (ht h1)

lemma fitnessAux_perfeito :
    ∀ (i : Nat) (individuo : List Aula),
      semConflitosHorario individuo = true → salasOkDesde i individuo = true →
      prefsOk individuo = true → fitnessAux i individuo = some 0 := by
  intro i individuo
  induction individuo generalizing i with
  | nil => intro _ _ _; rfl
  | cons a rest ih =>
    intro hc hs hp
    simp only [semConflitosHorario, Bool.and_eq_true, List.all_eq_true] at hc
    simp only [salasOkDesde, Bool.and_eq_true] at hs
    simp only [prefsOk, List.all_cons, Bool.and_eq_true] at hp
    have hsala : salaPenalty i a = some 0 := by
      unfold salaPenalty
      rcases hs with ⟨hs1, _⟩
      split
      · rename_i htipo
        revert hs1
        rw [if_pos (beq_iff_eq.mpr htipo)]
        cases hd : DISCIPLINAS.get? i with
        | none => intro hs1; exact absurd hs1 (by simp)
        | some d =>
          intro hs1
          have heq : a.sala = d.sala_requerida := by simpa using hs1
          simp [heq]
      · rename_i htipo
        rfl
    have hsum : (rest.map (pairPenalty a)).sum = 0 := by
      apply List.sum_eq_zero
      intro x hx
      obtain ⟨b, hb, rfl⟩ := List.mem_map.mp hx
      apply pairPenalty_eq_zero
      have := hc.1 b hb
      simp only [Bool.not_eq_eq_eq_not, Bool.not_true, Bool.and_eq_false_iff,
        beq_eq_false_iff_ne, ne_eq] at this
      tauto
    have hpref : prefPenalty a = 0 := by
      rcases hp with ⟨hp1, _⟩
      simp only [Bool.not_eq_eq_eq_not, Bool.not_true, Bool.or_eq_false_iff,
        Bool.and_eq_false_iff, Bool.not_eq_false, beq_eq_false_iff_ne, ne_eq] at hp1
      apply prefPenalty_eq_zero <;> intro hpref
      · rcases hp1.1 with h | h
        · exact absurd hpref h
        · exact List.mem_of_elem_eq_true h
      · rcases hp1.2 with h | h
        · exact absurd hpref h
        · exact List.mem_of_elem_eq_true h
    rw [fitnessAux_cons, hsala, ih (i + 1) (by tauto) hs.2 (by tauto)]
    simp [hsum, hpref]

/-- A violation-free candidate: catalog-aligned, required rooms, preferred
slots, all five sessions on distinct days. -/
def candPerfeito : List Aula := [
  ⟨"Cálculo I", "Ana", "Sala 101", "Segunda", "08:00-10:00", "teorica", "manha"⟩,
  ⟨"Algoritmos e Programação", "Alice", "Lab. Software", "Terça", "13:30-15:30",
    "laboratorio", "tarde"⟩,
  ⟨"Circuitos Digitais", "Carlos", "Lab. Hardware", "Quarta", "13:30-15:30",
    "laboratorio", "tarde"⟩,
  ⟨"Inteligência Artificial", "Bruno", "Sala 102", "Quinta", "10:00-12:00",
    "teorica", "qualquer"⟩,
  ⟨"Sistemas Operacionais", "Bruno", "Lab. Software", "Sexta", "08:00-10:00",
    "laboratorio", "manha"⟩]

/-- C2: every fitness value `calcular_fitness` returns is at most 1000 (and
it returns a value on every candidate no longer than the catalog); a
candidate with no same-day-same-slot pair, no lab-room mismatch and no
preference violation scores exactly 1000. -/
theorem c2_fitness_bounded :
    (∀ (individuo : List Aula) (r : Int),
      calcular_fitness individuo = some r → r ≤ 1000) ∧
    (∀ individuo : List Aula, individuo.length ≤ DISCIPLINAS.length →
      ∃ r, calcular_fitness individuo = some r) ∧
    (∀ individuo : List Aula, semConflitosHorario individuo = true →
      salasOk individuo = true → prefsOk individuo = true →
      calcular_fitness individuo = some 1000) := by
  refine ⟨?_, ?_, ?_⟩
  · intro individuo r h
    unfold calcular_fitness at h
    cases haux : fitnessAux 0 individuo with
    | none => rw [haux] at h; exact Option.noConfusion h
    | some p =>
      rw [haux] at h
      simp only [Option.map_some', Option.some.injEq] at h
      have := fitnessAux_nonneg 0 individuo p haux
      omega
  · intro individuo hlen
    obtain ⟨p, hp⟩ := fitnessAux_total 0 individuo (by omega)
    exact ⟨1000 - p, by rw [calcular_fitness, hp]; rfl⟩
  · intro individuo hc hs hp
    rw [calcular_fitness, fitnessAux_perfeito 0 individuo hc hs hp]
    rfl

/-- Witness for C2 at the concrete candidate `candPerfeito`. -/
theorem c2_witness :
    calcular_fitness candPerfeito = some 1000 ∧ (1000 : Int) ≤ 1000 ∧
      ∃ r, calcular_fitness candPerfeito = some r := by
  have hperf := c2_fitness_bounded.2.2 candPerfeito (by decide) (by decide) (by decide)
  exact ⟨hperf, c2_fitness_bounded.1 candPerfeito 1000 hperf,
    c2_fitness_bounded.2.1 candPerfeito (by decide)⟩

/-- C5: a same-day-same-slot pair is penalised 150 unconditionally, plus 200
for a shared instructor and 200 for a shared room; a two-session candidate
with one instructor conflict (different rooms, no lab or preference
violations) scores exactly 1000 - 200 - 150 = 650. -/
theorem c5_pair_penalties :
    (∀ a b : Aula, a.dia = b.dia → a.horario = b.horario →
      pairPenalty a b = (if a.professor = b.professor then 200 else 0)
        + (if a.sala = b.sala then 200 else 0) + 150) ∧
    (∀ a b : Aula, a.dia = b.dia → a.horario = b.horario →
      a.professor = b.professor → a.sala ≠ b.sala →
      a.tipo ≠ "laboratorio" → b.tipo ≠ "laboratorio" →
      prefPenalty a = 0 → prefPenalty b = 0 →
      calcular_fitness [a, b] = some 650) := by
  constructor
  · intro a b hd hh
    by_cases hp : a.professor = b.professor <;> by_cases hs : a.sala = b.sala <;>
      simp [pairPenalty, hd, hh, hp, hs]
  · intro a b hd hh hp hs ht1 ht2 hpa hpb
    have hsala_a : salaPenalty 0 a = some 0 := by unfold salaPenalty; rw [if_neg ht1]
    have hsala_b : salaPenalty 1 b = some 0 := by unfold salaPenalty; rw [if_neg ht2]
    have hpair : pairPenalty a b = 350 := by
      simp [pairPenalty, hd, hh, hp, hs]
    rw [calcular_fitness, fitnessAux_cons, hsala_a, fitnessAux_cons, hsala_b]
    have hnil : fitnessAux 2 [] = some 0 := rfl
    simp [hnil, hpair, hpa, hpb]

/-- Two theory sessions by the same instructor, same day and slot, different
rooms, `qualquer` preference. -/
def aulaConflito1 : Aula :=
  ⟨"Inteligência Artificial", "Bruno", "Sala 102", "Segunda", "08:00-10:00",
    "teorica", "qualquer"⟩

/-- Second session of the instructor-conflict pair. -/
def aulaConflito2 : Aula :=
  ⟨"Sistemas Operacionais", "Bruno", "Sala 101", "Segunda", "08:00-10:00",
    "teorica", "qualquer"⟩

/-- Witness for C5 at a concrete instructor-conflict pair. -/
theorem c5_witness :
    pairPenalty aulaConflito1 aulaConflito2 = 350 ∧
    calcular_fitness [aulaConflito1, aulaConflito2] = some 650 := by
  constructor
  · rw [c5_pair_penalties.1 aulaConflito1 aulaConflito2 rfl rfl]
    decide
  · exact c5_pair_penalties.2 aulaConflito1 aulaConflito2 rfl rfl rfl
      (by decide) (by decide) (by decide) (by decide) (by decide)

/-! ## Frame lemmas for the lab-room penalty (C6) -/

lemma pairPenalty_ignores_tipo_left (a b : Aula) (t : String) :
    pairPenalty { a with tipo := t } b = pairPenalty a b := rfl

lemma pairPenalty_ignores_tipo_right (a b : Aula) (t : String) :
    pairPenalty b { a with tipo := t } = pairPenalty b a := rfl

lemma prefPenalty_ignores_tipo (a : Aula) (t : String) :
    prefPenalty { a with tipo := t } = prefPenalty a := rfl

lemma fitnessAux_swap (x y : Aula)
    (hpair1 : ∀ b, pairPenalty x b = pairPenalty y b)
    (hpair2 : ∀ b, pairPenalty b x = pairPenalty b y)
    (hpref : prefPenalty x = prefPenalty y) (sx sy : Int) :
    ∀ (pre : List Aula) (j : Nat) (post : List Aula),
      salaPenalty (j + pre.length) x = some sx →
      salaPenalty (j + pre.length) y = some sy →
      fitnessAux j (pre ++ x :: post) =
        (fitnessAux j (pre ++ y :: post)).map (fun p => p + (sx - sy)) := by
  intro pre
  induction pre with
  | nil =>
    intro j post hx hy
    simp only [List.length_nil, Nat.add_zero] at hx hy
    simp only [List.nil_append]
    rw [fitnessAux_cons, hx, fitnessAux_cons, hy]
    cases hrec : fitnessAux (j + 1) post with
    | none => rfl
    | some q =>
      have hmap : post.map (pairPenalty x) = post.map (pairPenalty y) :=
        List.map_congr_left (fun b _ => hpair1 b)
      simp only [Option.some_bind, Option.bind_some, Option.map_some',
        Option.some.injEq, hmap, hpref]
      ring
  | cons c pre ih =>
    intro j post hx hy
    simp only [List.length_cons] at hx hy
    have hx' : salaPenalty (j + 1 + pre.length) x = some sx := by
      rw [show j + 1 + pre.length = j + (pre.length + 1) by omega]; exact hx
    have hy' : salaPenalty (j + 1 + pre.length) y = some sy := by
      rw [show j + 1 + pre.length = j + (pre.length + 1) by omega]; exact hy
    have hrec := ih (j + 1) post hx' hy'
    simp only [List.cons_append]
    rw [fitnessAux_cons, fitnessAux_cons, hrec]
    have hsum : ((pre ++ x :: post).map (pairPenalty c)).sum =
        ((pre ++ y :: post).map (pairPenalty c)).sum := by
      simp [hpair2 c]
    cases hs : salaPenalty j c with
    | none => rfl
    | some s =>
      cases hr : fitnessAux (j + 1) (pre ++ y :: post) with
      | none => rfl
      | some q =>
        simp only [Option.some_bind, Option.map_some', Option.bind_some,
          Option.some.injEq, hsum]
        ring

/-- C6: a `laboratorio` session whose room differs from the catalog room at
its positional index is charged exactly 300 by the per-session structural
check; the check never reads the session's day or slot; and end-to-end, the
whole fitness of any candidate containing such a session at position
`pre.length` is exactly 300 below the fitness of the same candidate with
that session exempted from the structural check (its kind set to `teorica`,
which no other fitness term reads). -/
theorem c6_lab_room_penalty :
    ∀ (pre post : List Aula) (a : Aula) (d : Disciplina),
      DISCIPLINAS.get? pre.length = some d → a.tipo = "laboratorio" →
      a.sala ≠ d.sala_requerida →
      salaPenalty pre.length a = some 300 ∧
      (∀ dia hor : String,
        salaPenalty pre.length { a with dia := dia, horario := hor } =
          salaPenalty pre.length a) ∧
      (∀ r : Int, calcular_fitness (pre ++ a :: post) = some r →
        calcular_fitness (pre ++ ({ a with tipo := "teorica" }) :: post) =
          some (r + 300)) := by
  intro pre post a d hd htipo hsala
  have h300 : salaPenalty pre.length a = some 300 := by
    unfold salaPenalty
    rw [if_pos htipo, hd, Option.map_some', if_pos hsala]
  refine ⟨h300, fun dia hor => rfl, ?_⟩
  intro r hr
  have h0 : salaPenalty pre.length ({ a with tipo := "teorica" }) = some 0 := by
    simp [salaPenalty]
  have hswap := fitnessAux_swap a ({ a with tipo := "teorica" })
    (fun b => (pairPenalty_ignores_tipo_left a b "teorica").symm)
    (fun b => (pairPenalty_ignores_tipo_right a b "teorica").symm)
    (prefPenalty_ignores_tipo a "teorica").symm 300 0 pre 0 post
    (by simpa using h300) (by simpa using h0)
  unfold calcular_fitness at hr ⊢
  cases hx : fitnessAux 0 (pre ++ a :: post) with
  | none => rw [hx] at hr; exact Option.noConfusion hr
  | some p =>
    rw [hx] at hr hswap
    simp only [Option.map_some', Option.some.injEq] at hr
    cases hy : fitnessAux 0 (pre ++ ({ a with tipo := "teorica" }) :: post) with
    | none => rw [hy] at hswap; exact Option.noConfusion hswap
    | some q =>
      rw [hy] at hswap
      simp only [Option.map_some', Option.some.injEq] at hswap
      simp only [Option.map_some', Option.some.injEq]
      omega

/-- A theory session matching catalog position 0. -/
def aulaTeo : Aula :=
  ⟨"Cálculo I", "Ana", "Sala 101", "Segunda", "08:00-10:00", "teorica", "manha"⟩

/-- A lab session for catalog position 1 placed in the wrong room. -/
def aulaLabErrada : Aula :=
  ⟨"Algoritmos e Programação", "Alice", "Sala 101", "Terça", "13:30-15:30",
    "laboratorio", "tarde"⟩

/-- Witness for C6 at a concrete misplaced lab session. -/
theorem c6_witness :
    salaPenalty 1 aulaLabErrada = some 300 ∧
    salaPenalty 1 { aulaLabErrada with dia := "Sexta", horario := "15:30-17:30" } =
      salaPenalty 1 aulaLabErrada ∧
    calcular_fitness ([aulaTeo] ++ ({ aulaLabErrada with tipo := "teorica" }) :: []) =
      some (700 + 300) := by
  have h := c6_lab_room_penalty [aulaTeo] [] aulaLabErrada
    ⟨"Algoritmos e Programação", "laboratorio", "Alice", "Lab. Software", "tarde"⟩
    (by decide) rfl (by decide)
  exact ⟨h.1, h.2.1 "Sexta" "15:30-17:30", h.2.2 700 (by decide)⟩

/-- C7: the crossover cut point lies in `[1, courseCount-1]`; the child has
catalog length; and when the two parents agree position-by-position on
course identity, the child agrees with both parents at every position. -/
theorem c7_crossover_alignment :
    ∀ (c : Nat) (pai1 pai2 : List Aula),
      pai1.length = DISCIPLINAS.length → pai2.length = DISCIPLINAS.length →
      (∀ i, i < DISCIPLINAS.length →
        (pai1.get? i).map Aula.disciplina = (pai2.get? i).map Aula.disciplina) →
      (crossover c pai1 pai2).length = DISCIPLINAS.length ∧
      1 ≤ pontoCorte c ∧ pontoCorte c ≤ DISCIPLINAS.length - 1 ∧
      (∀ i, ((crossover c pai1 pai2).get? i).map Aula.disciplina
          = (pai1.get? i).map Aula.disciplina ∧
        ((crossover c pai1 pai2).get? i).map Aula.disciplina
          = (pai2.get? i).map Aula.disciplina) := by
  intro c pai1 pai2 h1 h2 halign
  have hlen : DISCIPLINAS.length = 5 := rfl
  have hp1 : 1 ≤ pontoCorte c := Nat.le_add_right 1 _
  have hp2 : pontoCorte c ≤ DISCIPLINAS.length - 1 := by
    have := Nat.mod_lt c (show 0 < DISCIPLINAS.length - 1 by decide)
    unfold pontoCorte
    omega
  have htake : (pai1.take (pontoCorte c)).length = pontoCorte c := by
    rw [List.length_take]
    omega
  have hcross : ∀ i, (crossover c pai1 pai2).get? i =
      if i < pontoCorte c then pai1.get? i else pai2.get? i := by
    intro i
    unfold crossover
    by_cases hi : i < pontoCorte c
    · rw [if_pos hi, List.get?_append (by omega), List.get?_take hi]
    · rw [if_neg hi, List.get?_append_right (by omega), htake, List.get?_drop]
      congr 1
      omega
  refine ⟨?_, hp1, hp2, ?_⟩
  · unfold crossover
    rw [List.length_append, htake, List.length_drop]
    omega
  · intro i
    rw [hcross i]
    by_cases hi : i < pontoCorte c
    · rw [if_pos hi]
      refine ⟨rfl, ?_⟩
      by_cases hi5 : i < DISCIPLINAS.length
      · exact halign i hi5
      · rw [List.get?_eq_none.mpr (by omega), List.get?_eq_none.mpr (by omega)]
    · rw [if_neg hi]
      refine ⟨?_, rfl⟩
      by_cases hi5 : i < DISCIPLINAS.length
      · exact (halign i hi5).symm
      · rw [List.get?_eq_none.mpr (by omega), List.get?_eq_none.mpr (by omega)]

/-- A second catalog-aligned parent: same courses, different days/slots. -/
def candAlternativo : List Aula := [
  ⟨"Cálculo I", "Ana", "Sala 101", "Quarta", "10:00-12:00", "teorica", "manha"⟩,
  ⟨"Algoritmos e Programação", "Alice", "Lab. Software", "Segunda", "15:30-17:30",
    "laboratorio", "tarde"⟩,
  ⟨"Circuitos Digitais", "Carlos", "Lab. Hardware", "Sexta", "13:30-15:30",
    "laboratorio", "tarde"⟩,
  ⟨"Inteligência Artificial", "Bruno", "Sala 102", "Terça", "13:30-15:30",
    "teorica", "qualquer"⟩,
  ⟨"Sistemas Operacionais", "Bruno", "Lab. Software", "Quinta", "10:00-12:00",
    "laboratorio", "manha"⟩]

/-- Witness for C7 at a concrete parent pair and cut draw. -/
theorem c7_witness :
    (crossover 2 candPerfeito candAlternativo).length = DISCIPLINAS.length ∧
    1 ≤ pontoCorte 2 ∧
    ((crossover 2 candPerfeito candAlternativo).get? 4).map Aula.disciplina
      = (candAlternativo.get? 4).map Aula.disciplina := by
  have h := c7_crossover_alignment 2 candPerfeito candAlternativo
    (by decide) (by decide) (by decide)
  exact ⟨h.1, h.2.1, (h.2.2.2 4).2⟩

/-- Membership helper for modular random draws. -/
lemma getD_mod_mem {α : Type} (l : List α) (d : α) (k : Nat) (h : l ≠ []) :
    l.getD (k % l.length) d ∈ l := by
  have hlt : k % l.length < l.length :=
    Nat.mod_lt _ (List.length_pos.mpr h)
  rw [List.getD_eq_getElem l d hlt]
  exact List.getElem_mem hlt

/-- C8: on an empty candidate `mutacao` is the identity; otherwise it keeps
the length, rewrites exactly one position, and at that position changes only
the day (a member of `DIAS`) and the slot (drawn from the list selected by
that session's preference), keeping course identity, instructor, room, kind
and preference intact. -/
theorem c8_mutacao_frame :
    ∀ (m : MutRand) (individuo : List Aula),
      (individuo.isEmpty = true → mutacao m individuo = individuo) ∧
      (individuo.isEmpty = false →
        ∃ i, i < individuo.length ∧
          (mutacao m individuo).length = individuo.length ∧
          (∀ j, j ≠ i → (mutacao m individuo).get? j = individuo.get? j) ∧
          ∃ a b, individuo.get? i = some a ∧ (mutacao m individuo).get? i = some b ∧
            b.disciplina = a.disciplina ∧ b.professor = a.professor ∧
            b.sala = a.sala ∧ b.tipo = a.tipo ∧ b.preferencia = a.preferencia ∧
            b.dia ∈ DIAS ∧
            (a.preferencia = "manha" → b.horario ∈ HORARIOS_MANHA) ∧
            (a.preferencia = "tarde" → b.horario ∈ HORARIOS_TARDE) ∧
            b.horario ∈ HORARIOS_MANHA ++ HORARIOS_TARDE) := by
  intro m individuo
  constructor
  · intro hemp
    unfold mutacao
    rw [if_pos hemp]
  · intro hemp
    have hlen : 0 < individuo.length := by
      cases individuo with
      | nil => simp [List.isEmpty] at hemp
      | cons _ _ => simp
    have hi : m.pos % individuo.length < individuo.length := Nat.mod_lt _ hlen
    have hmut : mutacao m individuo = individuo.set (m.pos % individuo.length)
        { individuo.getD (m.pos % individuo.length) default with
          dia := DIAS.getD (m.dia % DIAS.length) ""
          horario := escolherHorario
            (individuo.getD (m.pos % individuo.length) default).preferencia m.hor } := by
      unfold mutacao
      rw [if_neg (by rw [hemp]; exact Bool.false_ne_true)]
    have hget : individuo.get? (m.pos % individuo.length) =
        some (individuo.getD (m.pos % individuo.length) default) := by
      rw [List.getD_eq_getElem _ _ hi, List.get?_eq_get hi]
      rfl
    refine ⟨m.pos % individuo.length, hi, ?_, ?_, ?_⟩
    · rw [hmut]
      exact List.length_set ..
    · intro j hj
      rw [hmut]
      exact List.get?_set_ne _ _ (fun h => hj h.symm)
    · refine ⟨individuo.getD (m.pos % individuo.length) default,
        { individuo.getD (m.pos % individuo.length) default with
          dia := DIAS.getD (m.dia % DIAS.length) ""
          horario := escolherHorario
            (individuo.getD (m.pos % individuo.length) default).preferencia m.hor },
        hget, ?_, rfl, rfl, rfl, rfl, rfl, ?_, ?_, ?_, ?_⟩
      · rw [hmut]
        exact List.get?_set_eq_of_lt _ hi
      · exact getD_mod_mem DIAS "" m.dia (by decide)
      · intro hpref
        show escolherHorario _ m.hor ∈ HORARIOS_MANHA
        rw [hpref]
        unfold escolherHorario
        rw [if_pos rfl]
        exact getD_mod_mem HORARIOS_MANHA "" m.hor (by decide)
      · intro hpref
        show escolherHorario _ m.hor ∈ HORARIOS_TARDE
        rw [hpref]
        unfold escolherHorario
        rw [if_neg (by decide), if_pos rfl]
        exact getD_mod_mem HORARIOS_TARDE "" m.hor (by decide)
      · show escolherHorario _ m.hor ∈ HORARIOS_MANHA ++ HORARIOS_TARDE
        unfold escolherHorario
        by_cases h1 : (individuo.getD (m.pos % individuo.length) default).preferencia
            = "manha"
        · rw [if_pos h1]
          exact List.mem_append_left _
            (getD_mod_mem HORARIOS_MANHA "" m.hor (by decide))
        · rw [if_neg h1]
          by_cases h2 : (individuo.getD (m.pos % individuo.length) default).preferencia
              = "tarde"
          · rw [if_pos h2]
            exact List.mem_append_right _
              (getD_mod_mem HORARIOS_TARDE "" m.hor (by decide))
          · rw [if_neg h2]
            exact getD_mod_mem (HORARIOS_MANHA ++ HORARIOS_TARDE) "" m.hor (by decide)

/-- Witness for C8: a concrete mutation of `candPerfeito` and the empty case. -/
theorem c8_witness :
    mutacao (⟨1, 3, 0⟩ : MutRand) ([] : List Aula) = [] ∧
    (∃ i, i < candPerfeito.length ∧
      (mutacao ⟨1, 3, 0⟩ candPerfeito).length = candPerfeito.length ∧
      (∀ j, j ≠ i →
        (mutacao ⟨1, 3, 0⟩ candPerfeito).get? j = candPerfeito.get? j) ∧
      ∃ a b, candPerfeito.get? i = some a ∧
        (mutacao ⟨1, 3, 0⟩ candPerfeito).get? i = some b ∧
        b.disciplina = a.disciplina ∧ b.professor = a.professor ∧
        b.sala = a.sala ∧ b.tipo = a.tipo ∧ b.preferencia = a.preferencia ∧
        b.dia ∈ DIAS ∧
        (a.preferencia = "manha" → b.horario ∈ HORARIOS_MANHA) ∧
        (a.preferencia = "tarde" → b.horario ∈ HORARIOS_TARDE) ∧
        b.horario ∈ HORARIOS_MANHA ++ HORARIOS_TARDE) :=
  ⟨(c8_mutacao_frame ⟨1, 3, 0⟩ []).1 rfl,
   (c8_mutacao_frame ⟨1, 3, 0⟩ candPerfeito).2 rfl⟩

/-- A fixed random source: every draw is the first element / zero. -/
def oracleZero : LoopRand :=
  { init := fun _ => { dia := fun _ => 0, hor := fun _ => 0 }
    step := fun _ => { p1 := fun _ => 0, p2 := fun _ => 0, corte := fun _ => 0,
                       moeda := fun _ => false, mutRand := fun _ => ⟨0, 0, 0⟩ } }

/-! ## The evolution loop ignores the observer (C9) -/

lemma geracaoStep_cb (tamanho : Nat) (cb : Option Callback) (r : StepRand)
    (g : Nat) (st : EstadoLoop) :
    geracaoStep tamanho cb r g st = geracaoStep tamanho none r g st := rfl

lemma loopGens_cb (tamanho : Nat) (cb : Option Callback) (r : LoopRand) :
    ∀ (n g : Nat) (st : EstadoLoop),
      loopGens tamanho cb r n g st = loopGens tamanho none r n g st := by
  intro n
  induction n with
  | zero => intro g st; rfl
  | succ n ih =>
    intro g st
    show (geracaoStep tamanho cb (r.step g) g st).bind
        (fun st1 => loopGens tamanho cb r n (g + 1) st1) =
      (geracaoStep tamanho none (r.step g) g st).bind
        (fun st1 => loopGens tamanho none r n (g + 1) st1)
    rw [geracaoStep_cb]
    cases geracaoStep tamanho none (r.step g) g st with
    | none => rfl
    | some st1 => exact ih (g + 1) st1

/-- C9: the run's result does not depend on the observer at all — every
observer invocation sits inside the `try/except` wrapper whose outcome is
discarded, so a raising observer leaves the returned best candidate (and
whether the run completes) identical to a run without one. -/
theorem c9_callback_immaterial :
    ∀ (tamanho geracoes : Nat) (r : LoopRand) (cb : Callback),
      algoritmo_genetico tamanho geracoes r (some cb) =
        algoritmo_genetico tamanho geracoes r none := by
  intro tamanho geracoes r cb
  show ((loopGens tamanho (some cb) r geracoes 0
      { populacao := populacaoInicial tamanho r, melhor_global := none,
        melhor_fitness_global := -1 }).bind fun fin => some fin.melhor_global) =
    ((loopGens tamanho none r geracoes 0
      { populacao := populacaoInicial tamanho r, melhor_global := none,
        melhor_fitness_global := -1 }).bind fun fin => some fin.melhor_global)
  rw [loopGens_cb]

/-! ## Monotonicity of the tracked global best (C4) -/

lemma geracaoStep_melhora {tamanho : Nat} {cb : Option Callback} {r : StepRand}
    {g : Nat} {st st1 : EstadoLoop} (h : geracaoStep tamanho cb r g st = some st1) :
    st.melhor_fitness_global ≤ st1.melhor_fitness_global ∧
    (st1.melhor_global = st.melhor_global ∨
      st.melhor_fitness_global < st1.melhor_fitness_global) := by
  unfold geracaoStep at h
  cases hfs : st.populacao.mapM calcular_fitness with
  | none => rw [hfs] at h; exact Option.noConfusion h
  | some fs =>
    rw [hfs] at h
    simp only [Option.bind_eq_bind, Option.some_bind] at h
    cases hmax : fs.max? with
    | none => rw [hmax] at h; exact Option.noConfusion h
    | some mf =>
      rw [hmax] at h
      simp only [Option.some_bind] at h
      injection h with h1
      subst h1
      by_cases hm : mf > st.melhor_fitness_global
      · constructor
        · show st.melhor_fitness_global ≤
            (if mf > st.melhor_fitness_global then mf else st.melhor_fitness_global)
          rw [if_pos hm]
          omega
        · right
          show st.melhor_fitness_global <
            (if mf > st.melhor_fitness_global then mf else st.melhor_fitness_global)
          rw [if_pos hm]
          omega
      · constructor
        · show st.melhor_fitness_global ≤
            (if mf > st.melhor_fitness_global then mf else st.melhor_fitness_global)
          rw [if_neg hm]
        · left
          show (if mf > st.melhor_fitness_global then _ else st.melhor_global)
            = st.melhor_global
          rw [if_neg hm]

lemma loopGens_melhora {tamanho : Nat} {cb : Option Callback} {r : LoopRand} :
    ∀ {n g : Nat} {st st1 : EstadoLoop}, loopGens tamanho cb r n g st = some st1 →
      st.melhor_fitness_global ≤ st1.melhor_fitness_global := by
  intro n
  induction n with
  | zero =>
    intro g st st1 h
    injection h with h1
    subst h1
    exact le_refl _
  | succ n ih =>
    intro g st st1 h
    have hbind : (geracaoStep tamanho cb (r.step g) g st).bind
        (fun st2 => loopGens tamanho cb r n (g + 1) st2) = some st1 := h
    cases hstep : geracaoStep tamanho cb (r.step g) g st with
    | none => rw [hstep] at hbind; exact Option.noConfusion hbind
    | some st2 =>
      rw [hstep] at hbind
      exact le_trans (geracaoStep_melhora hstep).1 (ih hbind)

/-- C4: across one generation the tracked global-best fitness never
decreases, and the tracked global-best candidate is replaced only when the
generation's best fitness strictly exceeds it; hence over any number of
generations the global-best fitness is monotonically non-decreasing. -/
theorem c4_global_best_monotone :
    (∀ (tamanho : Nat) (cb : Option Callback) (r : StepRand) (g : Nat)
        (st st1 : EstadoLoop), geracaoStep tamanho cb r g st = some st1 →
      st.melhor_fitness_global ≤ st1.melhor_fitness_global ∧
      (st1.melhor_global = st.melhor_global ∨
        st.melhor_fitness_global < st1.melhor_fitness_global)) ∧
    (∀ (tamanho : Nat) (cb : Option Callback) (r : LoopRand) (n g : Nat)
        (st st1 : EstadoLoop), loopGens tamanho cb r n g st = some st1 →
      st.melhor_fitness_global ≤ st1.melhor_fitness_global) :=
  ⟨fun _ _ _ _ _ _ h => geracaoStep_melhora h,
   fun _ _ _ _ _ _ _ h => loopGens_melhora h⟩

/-- Witness for C4: one concrete generation step and one concrete run. -/
theorem c4_witness :
    ((-1 : Int) ≤ 1000 ∧ (some candPerfeito = none ∨ (-1 : Int) < 1000)) ∧
    (-1 : Int) ≤ 1000 :=
  ⟨c4_global_best_monotone.1 1 none (oracleZero.step 0) 0
      ⟨[candPerfeito], none, -1⟩ ⟨[candPerfeito], some candPerfeito, 1000⟩
      (by decide),
   c4_global_best_monotone.2 1 none oracleZero 1 0
      ⟨[candPerfeito], none, -1⟩ ⟨[candPerfeito], some candPerfeito, 1000⟩
      (by decide)⟩

/-! ## Zero generations (C1) -/

/-- C1 counterexample: with `geracoes = 0` the loop body never runs, the
`-1` sentinel is never beaten, and the function returns `None` — not a
member of the initial population. -/
theorem c1_counterexample :
    algoritmo_genetico 3 0 oracleZero none = some none ∧
    (Option.join (algoritmo_genetico 3 0 oracleZero none)).isSome = false := by
  decide

/-- C1 amended: running `algoritmo_genetico` with `geracoes = 0` (any
population size, any random source, any observer) generates the initial
population, performs no generation — hence no selection, crossover or
mutation — and returns `None` rather than a candidate. -/
theorem c1_amended_zero_generations :
    ∀ (tamanho : Nat) (r : LoopRand) (cb : Option Callback),
      algoritmo_genetico tamanho 0 r cb = some none :=
  fun _ _ _ => rfl

/-! ## Length invariants and elite size (C3) -/

lemma insereDesc_length (x : Int × List Aula) :
    ∀ l : List (Int × List Aula), (insereDesc x l).length = l.length + 1 := by
  intro l
  induction l with
  | nil => rfl
  | cons y ys ih =>
    unfold insereDesc
    split
    · simp [ih]
    · simp

lemma foldl_insereDesc_length :
    ∀ (l : List (Int × List Aula)) (acc : List (Int × List Aula)),
      (l.foldl (fun acc x => insereDesc x acc) acc).length = acc.length + l.length := by
  intro l
  induction l with
  | nil => intro acc; rfl
  | cons y ys ih =>
    intro acc
    simp only [List.foldl_cons, ih, insereDesc_length, List.length_cons]
    omega

lemma ordenarPopulacao_length (fs : List Int) (pop : List (List Aula)) :
    (ordenarPopulacao fs pop).length = min fs.length pop.length := by
  unfold ordenarPopulacao
  rw [List.length_map, foldl_insereDesc_length, List.length_zip]
  simp

lemma mapM_calcular_length :
    ∀ (pop : List (List Aula)) (fs : List Int),
      pop.mapM calcular_fitness = some fs → fs.length = pop.length := by
  intro pop
  induction pop with
  | nil =>
    intro fs h
    rw [List.mapM_nil] at h
    injection h with h1
    rw [← h1]
    rfl
  | cons c rest ih =>
    intro fs h
    rw [List.mapM_cons] at h
    cases hf : calcular_fitness c with
    | none => rw [hf] at h; exact Option.noConfusion h
    | some f =>
      rw [hf] at h
      simp only [Option.bind_eq_bind, Option.some_bind] at h
      cases htail : rest.mapM calcular_fitness with
      | none => rw [htail] at h; exact Option.noConfusion h
      | some tail =>
        rw [htail] at h
        simp only [Option.some_bind] at h
        injection h with h1
        rw [← h1, List.length_cons, ih tail htail]
        rfl

lemma reproduzir_length (r : StepRand) (melhores : List (List Aula)) (tamanho : Nat) :
    (reproduzir r melhores tamanho).length =
      melhores.length + (tamanho - melhores.length) := by
  have hgen : ∀ (l : List Nat) (acc : List (List Aula)),
      (l.foldl (fun nova k =>
        let pai1 := melhores.getD (r.p1 k % melhores.length) []
        let pai2 := melhores.getD (r.p2 k % melhores.length) []
        let filho := crossover (r.corte k) pai1 pai2
        let filho := if r.moeda k then mutacao (r.mutRand k) filho else filho
        nova ++ [filho]) acc).length = acc.length + l.length := by
    intro l
    induction l with
    | nil => intro acc; rfl
    | cons y ys ih =>
      intro acc
      rw [List.foldl_cons, ih]
      simp only [List.length_append, List.length_cons, List.length_nil]
      omega
  unfold reproduzir
  rw [hgen, List.length_range]

lemma geracaoStep_preserva_tamanho {tamanho : Nat} {cb : Option Callback}
    {r : StepRand} {g : Nat} {st st1 : EstadoLoop}
    (hlen : st.populacao.length = tamanho)
    (h : geracaoStep tamanho cb r g st = some st1) :
    st1.populacao.length = tamanho := by
  unfold geracaoStep at h
  cases hfs : st.populacao.mapM calcular_fitness with
  | none => rw [hfs] at h; exact Option.noConfusion h
  | some fs =>
    rw [hfs] at h
    simp only [Option.bind_eq_bind, Option.some_bind] at h
    cases hmax : fs.max? with
    | none => rw [hmax] at h; exact Option.noConfusion h
    | some mf =>
      rw [hmax] at h
      simp only [Option.some_bind] at h
      injection h with h1
      subst h1
      show (reproduzir r (selecionarMelhores tamanho
        (ordenarPopulacao fs st.populacao)) tamanho).length = tamanho
      have hfs_len := mapM_calcular_length st.populacao fs hfs
      have hmel : (selecionarMelhores tamanho
          (ordenarPopulacao fs st.populacao)).length ≤ tamanho := by
        unfold selecionarMelhores
        rw [List.length_take, ordenarPopulacao_length, hfs_len, hlen]
        omega
      rw [reproduzir_length]
      omega

/-- C3 counterexample: with `tamanho_populacao = 1` the Selecting step of
generation 0 retains a single candidate, not `max 2 (1 / 5) = 2` — the
slice `populacao[:max(2, n//5)]` cannot exceed the population length. -/
theorem c3_counterexample :
    (selecionarMelhores 1 (populacaoInicial 1 oracleZero)).length = 1 ∧
    max 2 (1 / 5) = 2 := by
  decide

/-- C3 amended: for `tamanho_populacao ≥ 2` the elite slice of a full-sized
population has exactly `max 2 (tamanho / 5)` candidates (for `tamanho = 1`
it has only 1); the initial population is full-sized and every generation
step returns a full-sized population, so the elite retained in every
generation has exactly that size. -/
theorem c3_amended_elite_size :
    ∀ (tamanho : Nat) (pop : List (List Aula)), 2 ≤ tamanho → pop.length = tamanho →
      (selecionarMelhores tamanho pop).length = max 2 (tamanho / 5) ∧
      (∀ r : LoopRand, (populacaoInicial tamanho r).length = tamanho) ∧
      (∀ (cb : Option Callback) (r : StepRand) (g : Nat) (st st1 : EstadoLoop),
        st.populacao.length = tamanho → geracaoStep tamanho cb r g st = some st1 →
        st1.populacao.length = tamanho) := by
  intro tamanho pop h2 hlen
  refine ⟨?_, ?_, ?_⟩
  · unfold selecionarMelhores
    rw [List.length_take, hlen]
    have : tamanho / 5 ≤ tamanho := Nat.div_le_self _ _
    omega
  · intro r
    unfold populacaoInicial
    rw [List.length_map, List.length_range]
  · intro cb r g st st1 hl h
    exact geracaoStep_preserva_tamanho hl h

/-- Witness for C3 at population size 2. -/
theorem c3_witness :
    (selecionarMelhores 2 [candPerfeito, candAlternativo]).length = max 2 (2 / 5) ∧
    (populacaoInicial 2 oracleZero).length = 2 ∧
    (EstadoLoop.mk [candPerfeito, candAlternativo]
      (some candPerfeito) 1000).populacao.length = 2 :=
  have h := c3_amended_elite_size 2 [candPerfeito, candAlternativo]
    (by decide) (by decide)
  ⟨h.1, h.2.1 oracleZero,
   h.2.2 none (oracleZero.step 0) 0 ⟨[candPerfeito, candAlternativo], none, -1⟩
     ⟨[candPerfeito, candAlternativo], some candPerfeito, 1000⟩
     (by decide) (by decide)⟩

/-! ## The -1 sentinel and the None return (C10) -/

/-- Spec-side condition: every fitness value computed for this population is
at most the `-1` sentinel (vacuously true when the evaluation raises). -/
def todasNegativas (pop : List (List Aula)) : Bool :=
  ((pop.mapM calcular_fitness).getD []).all (fun f => decide (f ≤ -1))

/-- Spec-side condition on a run segment: every population evaluated over
the next `n` generations scores at most `-1` throughout. -/
def avaliacoesNegativas (tamanho : Nat) (cb : Option Callback) (r : LoopRand) :
    Nat → Nat → EstadoLoop → Prop
  | 0, _, _ => True
  | n + 1, g, st => todasNegativas st.populacao = true ∧
      ∀ st1, geracaoStep tamanho cb (r.step g) g st = some st1 →
        avaliacoesNegativas tamanho cb r n (g + 1) st1

lemma geracaoStep_sentinela {tamanho : Nat} {cb : Option Callback} {r : StepRand}
    {g : Nat} {st st1 : EstadoLoop} (h : geracaoStep tamanho cb r g st = some st1)
    (hneg : todasNegativas st.populacao = true) (hmg : st.melhor_global = none)
    (hmf : st.melhor_fitness_global = -1) :
    st1.melhor_global = none ∧ st1.melhor_fitness_global = -1 := by
  unfold geracaoStep at h
  cases hfs : st.populacao.mapM calcular_fitness with
  | none => rw [hfs] at h; exact Option.noConfusion h
  | some fs =>
    rw [hfs] at h
    simp only [Option.bind_eq_bind, Option.some_bind] at h
    cases hmax : fs.max? with
    | none => rw [hmax] at h; exact Option.noConfusion h
    | some mf =>
      rw [hmax] at h
      simp only [Option.some_bind] at h
      injection h with h1
      subst h1
      have hmem : mf ∈ fs := List.max?_mem (fun a b => max_choice a b) hmax
      have hle : mf ≤ -1 := by
        unfold todasNegativas at hneg
        rw [hfs] at hneg
        simp only [Option.getD_some, List.all_eq_true, decide_eq_true_eq] at hneg
        exact hneg mf hmem
      have hnot : ¬(mf > st.melhor_fitness_global) := by rw [hmf]; omega
      constructor
      · show (if mf > st.melhor_fitness_global
          then some ((ordenarPopulacao fs st.populacao).headD [])
          else st.melhor_global) = none
        rw [if_neg hnot]
        exact hmg
      · show (if mf > st.melhor_fitness_global
          then mf else st.melhor_fitness_global) = -1
        rw [if_neg hnot]
        exact hmf

lemma loopGens_sentinela {tamanho : Nat} {cb : Option Callback} {r : LoopRand} :
    ∀ {n g : Nat} {st st1 : EstadoLoop}, loopGens tamanho cb r n g st = some st1 →
      st.melhor_global = none → st.melhor_fitness_global = -1 →
      avaliacoesNegativas tamanho cb r n g st →
      st1.melhor_global = none ∧ st1.melhor_fitness_global = -1 := by
  intro n
  induction n with
  | zero =>
    intro g st st1 h hmg hmf _
    injection h with h1
    subst h1
    exact ⟨hmg, hmf⟩
  | succ n ih =>
    intro g st st1 h hmg hmf hneg
    obtain ⟨hneg1, hneg2⟩ := hneg
    have hbind : (geracaoStep tamanho cb (r.step g) g st).bind
        (fun st2 => loopGens tamanho cb r n (g + 1) st2) = some st1 := h
    cases hstep : geracaoStep tamanho cb (r.step g) g st with
    | none => rw [hstep] at hbind; exact Option.noConfusion hbind
    | some st2 =>
      rw [hstep] at hbind
      obtain ⟨h1, h2⟩ := geracaoStep_sentinela hstep hneg1 hmg hmf
      exact ih hbind h1 h2 (hneg2 st2 hstep)

lemma fitness_cinco {a0 a1 a2 a3 a4 : Aula}
    (h0 : salaPenalty 0 a0 = some 0) (h1 : salaPenalty 1 a1 = some 0)
    (h2 : salaPenalty 2 a2 = some 0) (h3 : salaPenalty 3 a3 = some 0)
    (h4 : salaPenalty 4 a4 = some 0)
    (p0 : prefPenalty a0 = 0) (p1 : prefPenalty a1 = 0) (p2 : prefPenalty a2 = 0)
    (p3 : prefPenalty a3 = 0) (p4 : prefPenalty a4 = 0) :
    calcular_fitness [a0, a1, a2, a3, a4] = some (1000 -
      (pairPenalty a0 a1 + pairPenalty a0 a2 + pairPenalty a0 a3 + pairPenalty a0 a4 +
       pairPenalty a1 a2 + pairPenalty a1 a3 + pairPenalty a1 a4 +
       pairPenalty a2 a3 + pairPenalty a2 a4 + pairPenalty a3 a4)) := by
  rw [calcular_fitness, fitnessAux_cons, fitnessAux_cons, fitnessAux_cons,
    fitnessAux_cons, fitnessAux_cons]
  simp only [Nat.reduceAdd]
  rw [h0, h1, h2, h3, h4]
  have hnil : fitnessAux 5 [] = some 0 := rfl
  rw [hnil]
  simp only [Option.some_bind, Option.map_some', List.map_cons, List.map_nil,
    List.sum_cons, List.sum_nil, p0, p1, p2, p3, p4, Option.some.injEq]
  ring

lemma escolherHorario_manha (k : Nat) :
    escolherHorario "manha" k ∈ HORARIOS_MANHA := by
  unfold escolherHorario
  rw [if_pos rfl]
  exact getD_mod_mem HORARIOS_MANHA "" k (by decide)

lemma escolherHorario_tarde (k : Nat) :
    escolherHorario "tarde" k ∈ HORARIOS_TARDE := by
  unfold escolherHorario
  rw [if_neg (by decide), if_pos rfl]
  exact getD_mod_mem HORARIOS_TARDE "" k (by decide)

lemma escolherHorario_qualquer (k : Nat) :
    escolherHorario "qualquer" k ∈ HORARIOS_MANHA ∨
      escolherHorario "qualquer" k ∈ HORARIOS_TARDE := by
  unfold escolherHorario
  rw [if_neg (by decide), if_neg (by decide)]
  exact List.mem_append.mp
    (getD_mod_mem (HORARIOS_MANHA ++ HORARIOS_TARDE) "" k (by decide))

lemma manha_tarde_disjuntos {x y : String} (hx : x ∈ HORARIOS_MANHA)
    (hy : y ∈ HORARIOS_TARDE) : x ≠ y := by
  fin_cases hx <;> fin_cases hy <;> decide

lemma pairPenalty_le_150 {a b : Aula} (hp : a.professor ≠ b.professor)
    (hs : a.sala ≠ b.sala) : pairPenalty a b ≤ 150 := by
  unfold pairPenalty
  rw [if_neg (fun hc => hp hc.2.2), if_neg (fun hc => hs hc.2.2)]
  split <;> norm_num

lemma pairPenalty_le_350 {a b : Aula} (hs : a.sala ≠ b.sala) :
    pairPenalty a b ≤ 350 := by
  unfold pairPenalty
  rw [if_neg (show ¬(a.dia = b.dia ∧ a.horario = b.horario ∧ a.sala = b.sala) from
    fun hc => hs hc.2.2)]
  split <;> split <;> norm_num

lemma pares_limite (a0 a1 a2 a3 a4 : Aula)
    (hp0 : a0.professor = "Ana") (hp1 : a1.professor = "Alice")
    (hp2 : a2.professor = "Carlos") (hp3 : a3.professor = "Bruno")
    (hp4 : a4.professor = "Bruno")
    (hs0 : a0.sala = "Sala 101") (hs1 : a1.sala = "Lab. Software")
    (hs2 : a2.sala = "Lab. Hardware") (hs3 : a3.sala = "Sala 102")
    (hs4 : a4.sala = "Lab. Software")
    (hh0 : a0.horario ∈ HORARIOS_MANHA) (hh1 : a1.horario ∈ HORARIOS_TARDE)
    (hh2 : a2.horario ∈ HORARIOS_TARDE) (hh4 : a4.horario ∈ HORARIOS_MANHA)
    (hh3 : a3.horario ∈ HORARIOS_MANHA ∨ a3.horario ∈ HORARIOS_TARDE) :
    pairPenalty a0 a1 + pairPenalty a0 a2 + pairPenalty a0 a3 + pairPenalty a0 a4 +
      pairPenalty a1 a2 + pairPenalty a1 a3 + pairPenalty a1 a4 +
      pairPenalty a2 a3 + pairPenalty a2 a4 + pairPenalty a3 a4 ≤ 800 := by
  have z01 : pairPenalty a0 a1 = 0 :=
    pairPenalty_eq_zero (fun hc => manha_tarde_disjuntos hh0 hh1 hc.2)
  have z02 : pairPenalty a0 a2 = 0 :=
    pairPenalty_eq_zero (fun hc => manha_tarde_disjuntos hh0 hh2 hc.2)
  have z14 : pairPenalty a1 a4 = 0 :=
    pairPenalty_eq_zero (fun hc => manha_tarde_disjuntos hh4 hh1 hc.2.symm)
  have z24 : pairPenalty a2 a4 = 0 :=
    pairPenalty_eq_zero (fun hc => manha_tarde_disjuntos hh4 hh2 hc.2.symm)
  have b04 : pairPenalty a0 a4 ≤ 150 :=
    pairPenalty_le_150 (by rw [hp0, hp4]; decide) (by rw [hs0, hs4]; decide)
  have b12 : pairPenalty a1 a2 ≤ 150 :=
    pairPenalty_le_150 (by rw [hp1, hp2]; decide) (by rw [hs1, hs2]; decide)
  have n01 := pairPenalty_nonneg a0 a1
  have n03 := pairPenalty_nonneg a0 a3
  have n13 := pairPenalty_nonneg a1 a3
  have n23 := pairPenalty_nonneg a2 a3
  have n34 := pairPenalty_nonneg a3 a4
  rcases hh3 with h3m | h3t
  · have z13 : pairPenalty a1 a3 = 0 :=
      pairPenalty_eq_zero (fun hc => manha_tarde_disjuntos h3m hh1 hc.2.symm)
    have z23 : pairPenalty a2 a3 = 0 :=
      pairPenalty_eq_zero (fun hc => manha_tarde_disjuntos h3m hh2 hc.2.symm)
    have b03 : pairPenalty a0 a3 ≤ 150 :=
      pairPenalty_le_150 (by rw [hp0, hp3]; decide) (by rw [hs0, hs3]; decide)
    have b34 : pairPenalty a3 a4 ≤ 350 :=
      pairPenalty_le_350 (by rw [hs3, hs4]; decide)
    omega
  · have z03 : pairPenalty a0 a3 = 0 :=
      pairPenalty_eq_zero (fun hc => manha_tarde_disjuntos hh0 h3t hc.2)
    have z34 : pairPenalty a3 a4 = 0 :=
      pairPenalty_eq_zero (fun hc => manha_tarde_disjuntos hh4 h3t hc.2.symm)
    have b13 : pairPenalty a1 a3 ≤ 150 :=
      pairPenalty_le_150 (by rw [hp1, hp3]; decide) (by rw [hs1, hs3]; decide)
    have b23 : pairPenalty a2 a3 ≤ 150 :=
      pairPenalty_le_150 (by rw [hp2, hp3]; decide) (by rw [hs2, hs3]; decide)
    omega

lemma gerar_individuo_pontuacao (r : IndRand) :
    ∃ f, calcular_fitness (gerar_individuo r) = some f ∧ 200 ≤ f := by
  have hgen : gerar_individuo r = [
    ⟨"Cálculo I", "Ana", "Sala 101", DIAS.getD (r.dia 0 % DIAS.length) "",
      escolherHorario "manha" (r.hor 0), "teorica", "manha"⟩,
    ⟨"Algoritmos e Programação", "Alice", "Lab. Software",
      DIAS.getD (r.dia 1 % DIAS.length) "",
      escolherHorario "tarde" (r.hor 1), "laboratorio", "tarde"⟩,
    ⟨"Circuitos Digitais", "Carlos", "Lab. Hardware",
      DIAS.getD (r.dia 2 % DIAS.length) "",
      escolherHorario "tarde" (r.hor 2), "laboratorio", "tarde"⟩,
    ⟨"Inteligência Artificial", "Bruno", "Sala 102",
      DIAS.getD (r.dia 3 % DIAS.length) "",
      escolherHorario "qualquer" (r.hor 3), "teorica", "qualquer"⟩,
    ⟨"Sistemas Operacionais", "Bruno", "Lab. Software",
      DIAS.getD (r.dia 4 % DIAS.length) "",
      escolherHorario "manha" (r.hor 4), "laboratorio", "manha"⟩] := rfl
  rw [hgen]
  refine ⟨_, fitness_cinco rfl rfl rfl rfl rfl
    (prefPenalty_eq_zero (fun _ => escolherHorario_manha (r.hor 0))
      (fun h => by simp at h))
    (prefPenalty_eq_zero (fun h => by simp at h)
      (fun _ => escolherHorario_tarde (r.hor 1)))
    (prefPenalty_eq_zero (fun h => by simp at h)
      (fun _ => escolherHorario_tarde (r.hor 2)))
    (prefPenalty_eq_zero (fun h => by simp at h) (fun h => by simp at h))
    (prefPenalty_eq_zero (fun _ => escolherHorario_manha (r.hor 4))
      (fun h => by simp at h)), ?_⟩
  have hb := pares_limite
    ⟨"Cálculo I", "Ana", "Sala 101", DIAS.getD (r.dia 0 % DIAS.length) "",
      escolherHorario "manha" (r.hor 0), "teorica", "manha"⟩
    ⟨"Algoritmos e Programação", "Alice", "Lab. Software",
      DIAS.getD (r.dia 1 % DIAS.length) "",
      escolherHorario "tarde" (r.hor 1), "laboratorio", "tarde"⟩
    ⟨"Circuitos Digitais", "Carlos", "Lab. Hardware",
      DIAS.getD (r.dia 2 % DIAS.length) "",
      escolherHorario "tarde" (r.hor 2), "laboratorio", "tarde"⟩
    ⟨"Inteligência Artificial", "Bruno", "Sala 102",
      DIAS.getD (r.dia 3 % DIAS.length) "",
      escolherHorario "qualquer" (r.hor 3), "teorica", "qualquer"⟩
    ⟨"Sistemas Operacionais", "Bruno", "Lab. Software",
      DIAS.getD (r.dia 4 % DIAS.length) "",
      escolherHorario "manha" (r.hor 4), "laboratorio", "manha"⟩
    rfl rfl rfl rfl rfl rfl rfl rfl rfl rfl
    (escolherHorario_manha (r.hor 0)) (escolherHorario_tarde (r.hor 1))
    (escolherHorario_tarde (r.hor 2)) (escolherHorario_manha (r.hor 4))
    (escolherHorario_qualquer (r.hor 3))
  omega

lemma mapM_pontuacoes :
    ∀ pop : List (List Aula),
      (∀ c ∈ pop, ∃ f, calcular_fitness c = some f ∧ 200 ≤ f) →
      ∃ fs, pop.mapM calcular_fitness = some fs ∧ (∀ f ∈ fs, 200 ≤ f) ∧
        fs.length = pop.length := by
  intro pop
  induction pop with
  | nil =>
    intro _
    exact ⟨[], by rw [List.mapM_nil]; rfl, by simp, rfl⟩
  | cons c rest ih =>
    intro hall
    obtain ⟨f, hf, hf2⟩ := hall c (List.mem_cons_self ..)
    obtain ⟨fs, hfs, hall2, hlen⟩ := ih (fun x hx => hall x (List.mem_cons_of_mem _ hx))
    refine ⟨f :: fs, ?_, ?_, ?_⟩
    · rw [List.mapM_cons, hf, hfs]
      rfl
    · intro x hx
      rcases List.mem_cons.mp hx with h | h
      · rw [h]; exact hf2
      · exact hall2 x h
    · simp [hlen]

lemma geracaoStep_ativa {tamanho : Nat} {cb : Option Callback} {r : StepRand}
    {g : Nat} {st st1 : EstadoLoop} (h : geracaoStep tamanho cb r g st = some st1)
    (hpop : ∀ c ∈ st.populacao, ∃ f, calcular_fitness c = some f ∧ 200 ≤ f)
    (hsent : st.melhor_global = none → st.melhor_fitness_global = -1) :
    st1.melhor_global.isSome = true := by
  unfold geracaoStep at h
  obtain ⟨fs, hfs, hall, _⟩ := mapM_pontuacoes st.populacao hpop
  rw [hfs] at h
  simp only [Option.bind_eq_bind, Option.some_bind] at h
  cases hmax : fs.max? with
  | none => rw [hmax] at h; exact Option.noConfusion h
  | some mf =>
    rw [hmax] at h
    simp only [Option.some_bind] at h
    injection h with h1
    subst h1
    have hmf : 200 ≤ mf := hall mf (List.max?_mem (fun a b => max_choice a b) hmax)
    show (if mf > st.melhor_fitness_global
      then some ((ordenarPopulacao fs st.populacao).headD [])
      else st.melhor_global).isSome = true
    by_cases hgt : mf > st.melhor_fitness_global
    · rw [if_pos hgt]; rfl
    · rw [if_neg hgt]
      cases hmg : st.melhor_global with
      | some c => rfl
      | none =>
        have := hsent hmg
        omega

lemma geracaoStep_preserva_algum {tamanho : Nat} {cb : Option Callback}
    {r : StepRand} {g : Nat} {st st1 : EstadoLoop}
    (h : geracaoStep tamanho cb r g st = some st1)
    (hsome : st.melhor_global.isSome = true) : st1.melhor_global.isSome = true := by
  unfold geracaoStep at h
  cases hfs : st.populacao.mapM calcular_fitness with
  | none => rw [hfs] at h; exact Option.noConfusion h
  | some fs =>
    rw [hfs] at h
    simp only [Option.bind_eq_bind, Option.some_bind] at h
    cases hmax : fs.max? with
    | none => rw [hmax] at h; exact Option.noConfusion h
    | some mf =>
      rw [hmax] at h
      simp only [Option.some_bind] at h
      injection h with h1
      subst h1
      show (if mf > st.melhor_fitness_global
        then some ((ordenarPopulacao fs st.populacao).headD [])
        else st.melhor_global).isSome = true
      by_cases hgt : mf > st.melhor_fitness_global
      · rw [if_pos hgt]; rfl
      · rw [if_neg hgt]; exact hsome

lemma loopGens_preserva_algum {tamanho : Nat} {cb : Option Callback} {r : LoopRand} :
    ∀ {n g : Nat} {st st1 : EstadoLoop}, loopGens tamanho cb r n g st = some st1 →
      st.melhor_global.isSome = true → st1.melhor_global.isSome = true := by
  intro n
  induction n with
  | zero =>
    intro g st st1 h hs
    injection h with h1
    subst h1
    exact hs
  | succ n ih =>
    intro g st st1 h hs
    have hbind : (geracaoStep tamanho cb (r.step g) g st).bind
        (fun st2 => loopGens tamanho cb r n (g + 1) st2) = some st1 := h
    cases hstep : geracaoStep tamanho cb (r.step g) g st with
    | none => rw [hstep] at hbind; exact Option.noConfusion hbind
    | some st2 =>
      rw [hstep] at hbind
      exact ih hbind (geracaoStep_preserva_algum hstep hs)

lemma loopGens_ativa {tamanho : Nat} {cb : Option Callback} {r : LoopRand} :
    ∀ {n g : Nat} {st st1 : EstadoLoop}, loopGens tamanho cb r n g st = some st1 →
      1 ≤ n → (∀ c ∈ st.populacao, ∃ f, calcular_fitness c = some f ∧ 200 ≤ f) →
      (st.melhor_global = none → st.melhor_fitness_global = -1) →
      st1.melhor_global.isSome = true := by
  intro n
  cases n with
  | zero => intro g st st1 _ h1 _ _; omega
  | succ n =>
    intro g st st1 h _ hpop hsent
    have hbind : (geracaoStep tamanho cb (r.step g) g st).bind
        (fun st2 => loopGens tamanho cb r n (g + 1) st2) = some st1 := h
    cases hstep : geracaoStep tamanho cb (r.step g) g st with
    | none => rw [hstep] at hbind; exact Option.noConfusion hbind
    | some st2 =>
      rw [hstep] at hbind
      exact loopGens_preserva_algum hbind (geracaoStep_ativa hstep hpop hsent)

lemma algoritmo_devolve_algum {tamanho geracoes : Nat} {r : LoopRand}
    {cb : Option Callback} {res : Option (List Aula)}
    (h : algoritmo_genetico tamanho geracoes r cb = some res)
    (hg : 1 ≤ geracoes) : ∃ c, res = some c := by
  have hbind : ((loopGens tamanho cb r geracoes 0
      { populacao := populacaoInicial tamanho r, melhor_global := none,
        melhor_fitness_global := -1 }).bind fun fin => some fin.melhor_global)
      = some res := h
  cases hloop : loopGens tamanho cb r geracoes 0
      { populacao := populacaoInicial tamanho r, melhor_global := none,
        melhor_fitness_global := -1 } with
  | none => rw [hloop] at hbind; exact Option.noConfusion hbind
  | some fin =>
    rw [hloop] at hbind
    simp only [Option.some_bind] at hbind
    injection hbind with h1
    have hpop : ∀ c ∈ populacaoInicial tamanho r,
        ∃ f, calcular_fitness c = some f ∧ 200 ≤ f := by
      intro c hc
      obtain ⟨k, _, hk⟩ := List.mem_map.mp hc
      rw [← hk]
      exact gerar_individuo_pontuacao (r.init k)
    have hsome := loopGens_ativa hloop hg hpop (fun _ => rfl)
    obtain ⟨c, hc⟩ := Option.isSome_iff_exists.mp hsome
    exact ⟨c, by rw [← h1, hc]⟩

/-- C10 counterexample: at `tamanho_populacao = 0, geracoes = 1` every
evaluated candidate (there are none) scores at most -1, a (vacuous)
population evaluation does happen, yet the run does not return `None`: it
dies with the `ValueError` of `max([])` (the error outcome, outer `none`,
is distinct from a normal `None` return, `some none`). -/
theorem c10_counterexample :
    algoritmo_genetico 0 1 oracleZero none = none ∧
    algoritmo_genetico 0 1 oracleZero none ≠ some none := by
  decide

/-- C10 amended: the global best starts as the sentinel pair (`None`, `-1`);
from any state carrying that sentinel, if every population evaluated in the
remaining generations scores at most `-1`, the final state still carries it,
and a completed run whose final state carries `None` returns `None`.
However, the antecedent never occurs in a real run: every candidate
`gerar_individuo` produces scores at least 200 with this catalog (rooms are
copied from the catalog and slots respect preferences), so any completed run
with at least one generation returns an actual candidate, never `None`
(and with `tamanho_populacao = 0` the run raises at `max([])` instead). -/
theorem c10_amended_sentinel :
    (∀ (tamanho : Nat) (cb : Option Callback) (r : LoopRand) (n g : Nat)
        (st st1 : EstadoLoop), loopGens tamanho cb r n g st = some st1 →
      st.melhor_global = none → st.melhor_fitness_global = -1 →
      avaliacoesNegativas tamanho cb r n g st →
      st1.melhor_global = none ∧ st1.melhor_fitness_global = -1) ∧
    (∀ (tamanho geracoes : Nat) (r : LoopRand) (cb : Option Callback)
        (fin : EstadoLoop),
      loopGens tamanho cb r geracoes 0
        ⟨populacaoInicial tamanho r, none, -1⟩ = some fin →
      fin.melhor_global = none →
      algoritmo_genetico tamanho geracoes r cb = some none) ∧
    (∀ rnd : IndRand, ∃ f, calcular_fitness (gerar_individuo rnd) = some f ∧
      200 ≤ f) ∧
    (∀ (tamanho geracoes : Nat) (r : LoopRand) (cb : Option Callback)
        (res : Option (List Aula)), 1 ≤ geracoes →
      algoritmo_genetico tamanho geracoes r cb = some res → ∃ c, res = some c) := by
  refine ⟨?_, ?_, ?_, ?_⟩
  · intro tamanho cb r n g st st1 h hmg hmf hneg
    exact loopGens_sentinela h hmg hmf hneg
  · intro tamanho geracoes r cb fin hloop hfin
    show ((loopGens tamanho cb r geracoes 0
        { populacao := populacaoInicial tamanho r, melhor_global := none,
          melhor_fitness_global := -1 }).bind fun fin2 =>
      some fin2.melhor_global) = some none
    rw [hloop]
    simp only [Option.some_bind, hfin]
  · exact gerar_individuo_pontuacao
  · intro tamanho geracoes r cb res hg h
    exact algoritmo_devolve_algum h hg

/-- Witness for C10: a population whose only candidate scores -4500 keeps
the sentinel through a full generation; a completed sentinel run returns
`None`; a generator candidate scores at least 200; and a one-generation run
of population size 1 returns an actual candidate. -/
theorem c10_witness :
    ((none : Option (List Aula)) = none ∧ (-1 : Int) = -1) ∧
    algoritmo_genetico 1 0 oracleZero none = some none ∧
    (∃ f, calcular_fitness (gerar_individuo (oracleZero.init 0)) = some f ∧
      200 ≤ f) ∧
    (∃ c, (some (gerar_individuo (oracleZero.init 0)) : Option (List Aula)) =
      some c) :=
  ⟨c10_amended_sentinel.1 1 none oracleZero 1 0
      ⟨[List.replicate 5 aulaConflito1], none, -1⟩
      ⟨[List.replicate 5 aulaConflito1], none, -1⟩
      (by decide) rfl rfl ⟨by decide, fun _ _ => trivial⟩,
   c10_amended_sentinel.2.1 1 0 oracleZero none
      ⟨populacaoInicial 1 oracleZero, none, -1⟩ rfl rfl,
   c10_amended_sentinel.2.2.1 (oracleZero.init 0),
   c10_amended_sentinel.2.2.2 1 1 oracleZero none
      (some (gerar_individuo (oracleZero.init 0))) (by decide) (by decide)⟩
